import Mathlib

/-!
Verification of the Listing (Product) lifecycle and catalog engine of the
Recycle marketplace backend (`backend/app`).  The Python source is shallowly
embedded: SQLAlchemy rows become structures, the database session becomes an
explicit `Db` state threaded through each operation, timestamps are natural
numbers supplied by the caller (`now`), and monetary amounts are integers.
Fallible operations return `Except` or pair the new state with a `Bool`,
mirroring the `HTTPException` / return-code behaviour of the source.
-/

namespace Recycle

/-! ## Generic helpers -/

/-- Case-insensitive ASCII lowering of a character (models Python `str.lower`
and SQL `ILIKE` case folding for the ASCII identifiers used in the data). -/
def lowerChar (c : Char) : Char :=
  if 'A' ≤ c ∧ c ≤ 'Z' then Char.ofNat (c.toNat + 32) else c

/-- Lower-case a string, character by character. -/
def lowerStr (s : String) : String :=
  String.mk (s.toList.map lowerChar)

/-- Decidable list-prefix test used by the substring search. -/
def charPrefix : List Char → List Char → Bool
  | [], _ => true
  | _ :: _, [] => false
  | a :: as, b :: bs => a == b && charPrefix as bs

/-- `containsSub hay pat`: does `pat` occur contiguously inside `hay`?  Models
the SQL `LIKE %pat%` containment test. -/
def containsSub (hay pat : List Char) : Bool :=
  (List.range (hay.length + 1)).any (fun i => charPrefix pat (hay.drop i))

/-- Case-insensitive containment, modelling `column.ilike(f"%{pat}%")`. -/
def ilikeContains (hay pat : String) : Bool :=
  containsSub (lowerStr hay).toList (lowerStr pat).toList

/-- Lexicographic `≤` on strings by character code (models SQL `ASC` ordering
on a text column); defined on char lists so it evaluates by `decide`. -/
def charListLe : List Char → List Char → Bool
  | [], _ => true
  | _ :: _, [] => false
  | a :: as, b :: bs =>
    if a.toNat < b.toNat then true
    else if b.toNat < a.toNat then false
    else charListLe as bs

/-- String comparison used by the `title` sort option. -/
def strLe (a b : String) : Bool := charListLe a.toList b.toList

/-- Python truthiness of an optional string (`if filters.category:`):
`None` and the empty string are falsy. -/
def pyTruthy : Option String → Bool
  | none => false
  | some s => s ≠ ""

/-- Python truthiness of an optional integer id (`if current_user_id:`):
`None` and `0` are falsy. -/
def pyTruthyNat : Option Nat → Bool
  | none => false
  | some n => n ≠ 0

/-- `≤` on a nullable SQL numeric column under MySQL ordering: `NULL` sorts
before every value ascending (hence after every value descending). -/
def optIntLe (a b : Option Int) : Bool :=
  match a, b with
  | none, _ => true
  | some _, none => false
  | some x, some y => x ≤ y

/-! ## Data model (from `backend/app/models/*.py`) -/

/-- `status_enum` of `models/product.py`. -/
inductive Status
  | active
  | sold
  | paused
  | draft
deriving DecidableEq, Repr

/-- The string stored for a status value. -/
def Status.str : Status → String
  | .active => "active"
  | .sold => "sold"
  | .paused => "paused"
  | .draft => "draft"

/-- A row of the `products` table (`models/product.py`).  Amounts are integers
(the `Numeric(12,2)` column in hundredths), timestamps are naturals. -/
structure Listing where
  id : Nat
  sellerId : Nat
  title : String
  description : String
  categoryId : Nat
  condition : String
  quantity : Nat
  likesCount : Nat
  viewsCount : Nat
  priceAmount : Option Int
  priceCurrency : Option String
  priceType : String
  status : Status
  locationId : Nat
  isFlagged : Bool
  createdAt : Nat
  updatedAt : Nat
  soldAt : Option Nat
  deletedAt : Option Nat
deriving DecidableEq, Repr

/-- A row of `product_price_history` (`models/price_history.py`).  The columns
are `NOT NULL` in the schema; they are stored as options here because the
application can attempt to insert a null (the constraint is then checked at
commit time, see `phRowOk`). -/
structure PriceHistoryRow where
  productId : Nat
  changedAt : Nat
  amount : Option Int
  currency : Option String
deriving DecidableEq, Repr

/-- A row of `product_images` (`models/product_images.py`). -/
structure ImageRow where
  id : Nat
  productId : Nat
  url : String
  altText : Option String
  sortOrder : Nat
  createdAt : Nat
deriving DecidableEq, Repr

/-- A row of `item_views` (`models/item_views.py`); `viewer_user_id` is
nullable (anonymous views). -/
structure ViewRow where
  id : Nat
  productId : Nat
  viewerUserId : Option Nat
  viewedAt : Nat
deriving DecidableEq, Repr

/-- A row of `favorites` (`models/favorites.py`). -/
structure FavoriteRow where
  userId : Nat
  productId : Nat
  createdAt : Nat
deriving DecidableEq, Repr

/-- A row of `sold_item_archive` (`models/sold.py`). -/
structure SoldArchiveRow where
  id : Nat
  productId : Option Nat
  buyerId : Option Nat
  title : String
  categoryId : Nat
  locationId : Nat
  priceAmount : Option Int
  priceCurrency : Option String
  soldAt : Nat
deriving DecidableEq, Repr

/-- A row of `categories` (`models/category.py`), as used by the category
filter join. -/
structure CategoryRow where
  id : Nat
  name : String
deriving DecidableEq, Repr

/-- The database state visible to the listing subsystem: the tables touched by
the embedded operations, plus id counters for the auto-increment keys. -/
structure Db where
  products : List Listing
  priceHistory : List PriceHistoryRow
  images : List ImageRow
  views : List ViewRow
  favorites : List FavoriteRow
  soldArchive : List SoldArchiveRow
  categories : List CategoryRow
  nextImageId : Nat
  nextViewId : Nat
  nextArchiveId : Nat
deriving DecidableEq, Repr

/-- `db.query(Product).filter(Product.id == product_id).first()`. -/
def findProduct (db : Db) (pid : Nat) : Option Listing :=
  db.products.find? (fun p => p.id == pid)

/-- Price-history rows of one listing, in insertion order. -/
def phFor (db : Db) (pid : Nat) : List PriceHistoryRow :=
  db.priceHistory.filter (fun r => r.productId == pid)

/-- View rows of one (listing, viewer) pair. -/
def viewsFor (db : Db) (pid vid : Nat) : List ViewRow :=
  db.views.filter (fun v => v.productId == pid && v.viewerUserId == some vid)

/-- Image rows of one listing. -/
def imagesFor (db : Db) (pid : Nat) : List ImageRow :=
  db.images.filter (fun i => i.productId == pid)

/-! ## Declared storage constraints (from the SQLAlchemy table definitions)

Each table's uniqueness-relevant metadata is transcribed from the model file:
primary-key columns, and every `Index` from `__table_args__` or a
`index=True` column, tagged with whether it is declared unique. -/

/-- One declared table constraint: a primary key, or an index that is either
unique or plain. -/
inductive TableConstraint
  | primaryKey (cols : List String)
  | uniqueIndex (cols : List String)
  | plainIndex (cols : List String)
deriving DecidableEq, Repr

/-- Constraints declared on `item_views` in `models/item_views.py`:
an integer surrogate primary key, plain indexes on `product_id` and
`viewer_user_id`, and the composite plain index
`ix_item_views_product_time (product_id, viewed_at)`. -/
def itemViewsConstraints : List TableConstraint :=
  [ .primaryKey ["id"],
    .plainIndex ["product_id"],
    .plainIndex ["viewer_user_id"],
    .plainIndex ["product_id", "viewed_at"] ]

/-- Constraints declared on `favorites` in `models/favorites.py`:
composite primary key `(user_id, product_id)` and two plain indexes. -/
def favoritesConstraints : List TableConstraint :=
  [ .primaryKey ["user_id", "product_id"],
    .plainIndex ["user_id"],
    .plainIndex ["product_id"] ]

/-- A storage-level guarantee that no two rows agree on every column of
`pair`: some primary key or unique index whose columns all lie inside
`pair`. -/
def enforcesPairUnique (cs : List TableConstraint) (pair : List String) : Bool :=
  cs.any (fun c =>
    match c with
    | .primaryKey cols => cols.all (fun x => pair.contains x)
    | .uniqueIndex cols => cols.all (fun x => pair.contains x)
    | .plainIndex _ => false)

/-- The view store never holds two rows for the same (listing, viewer) pair:
no duplicate `(product_id, viewer_user_id)` among rows with a viewer. -/
def viewsPairUnique (views : List ViewRow) : Prop :=
  ∀ v ∈ views, ∀ w ∈ views,
    v.viewerUserId.isSome →
    v.productId = w.productId → v.viewerUserId = w.viewerUserId → v = w

/-! ## Filter / sort / count engine (`ProductRepository`) -/

/-- `ProductFilter` (`schemas/product.py`): independently combinable filter
fields; `sort_by` defaults to `"newest"`. -/
structure ProductFilter where
  category : Option String := none
  minPrice : Option Int := none
  maxPrice : Option Int := none
  locationId : Option Nat := none
  condition : Option String := none
  sortBy : Option String := some "newest"
  status : Option String := none
  searchTerm : Option String := none
deriving Repr

/-- `ProductRepository._apply_filters`: the conjunction of the requested
predicates.  `ftMatch title description term` abstracts the MySQL
`MATCH(title, description) AGAINST(term IN BOOLEAN MODE)` full-text test;
the category predicate is the inner join with `categories` plus an `ILIKE`
on the category name; a `NULL` price fails both price comparisons (SQL
three-valued logic drops the row). -/
def applyFilters (ftMatch : String → String → String → Bool)
    (cats : List CategoryRow) (f : ProductFilter) (p : Listing) : Bool :=
  (match f.category with
   | some c =>
     if c = "" then true
     else cats.any (fun k => k.id == p.categoryId && ilikeContains k.name c)
   | none => true) &&
  (match f.minPrice with
   | some m => (match p.priceAmount with | some a => m ≤ a | none => false)
   | none => true) &&
  (match f.maxPrice with
   | some m => (match p.priceAmount with | some a => a ≤ m | none => false)
   | none => true) &&
  (match f.locationId with
   | some l => p.locationId == l
   | none => true) &&
  (match f.condition with
   | some c => if c = "" then true else ilikeContains p.condition c
   | none => true) &&
  (match f.status with
   | some s => p.status.str == s
   | none => true) &&
  (match f.searchTerm with
   | some t => if t = "" then true else ftMatch p.title p.description t
   | none => true)

/-- The `sort_options` table of `ProductRepository._apply_sorting`, as a
`Bool`-valued `≤` on listings; unknown keys fall back to `newest`
(`created_at` descending), matching `sort_options.get(..., desc(created_at))`. -/
def sortOptionLe (key : String) (p q : Listing) : Bool :=
  if key = "oldest" then p.createdAt ≤ q.createdAt
  else if key = "price_low" then optIntLe p.priceAmount q.priceAmount
  else if key = "price_high" then optIntLe q.priceAmount p.priceAmount
  else if key = "title" then strLe p.title q.title
  else q.createdAt ≤ p.createdAt

/-- `ProductRepository._apply_sorting`: relevance ordering (by the abstract
full-text rank `ftRank`, descending) when a search term is present and
`sort_by == "relevance"`; otherwise the `sort_options` lookup; default
`created_at` descending. -/
def applySorting (ftRank : String → String → String → Int)
    (filters : Option ProductFilter) (l : List Listing) : List Listing :=
  match filters with
  | some f =>
    if pyTruthy f.searchTerm ∧ f.sortBy = some "relevance" then
      let term := f.searchTerm.getD ""
      l.mergeSort (fun p q => ftRank q.title q.description term ≤ ftRank p.title p.description term)
    else
      match f.sortBy with
      | some key => l.mergeSort (sortOptionLe key)
      | none => l.mergeSort (fun p q => q.createdAt ≤ p.createdAt)
  | none => l.mergeSort (fun p q => q.createdAt ≤ p.createdAt)

/-- `ProductRepository.get_all_filtered(filters, skip, limit, ...,
sort_field, sort_direction)`: the not-deleted base query, the optional
filters, the sort (an explicit `sort_field` column projection wins over
`_apply_sorting`), then `offset(skip).limit(limit)`. -/
def getAllFiltered (ftMatch : String → String → String → Bool)
    (ftRank : String → String → String → Int) (db : Db)
    (filters : Option ProductFilter) (skip limit : Nat)
    (sortField : Option (Listing → Int)) (sortDirection : String) : List Listing :=
  let q := db.products.filter (fun p => p.deletedAt.isNone)
  let q := match filters with
    | some f => q.filter (applyFilters ftMatch db.categories f)
    | none => q
  let q := match sortField with
    | some key =>
      if sortDirection = "asc" then q.mergeSort (fun p r => key p ≤ key r)
      else q.mergeSort (fun p r => key r ≤ key p)
    | none => applySorting ftRank filters q
  (q.drop skip).take limit

/-- `ProductRepository.count_filtered(filters)`: the same not-deleted base
query and the same `_apply_filters`, then `count()`. -/
def countFiltered (ftMatch : String → String → String → Bool) (db : Db)
    (filters : Option ProductFilter) : Nat :=
  let q := db.products.filter (fun p => p.deletedAt.isNone)
  let q := match filters with
    | some f => q.filter (applyFilters ftMatch db.categories f)
    | none => q
  q.length

/-! ## Mutating repository operations (`repositories/product_repository.py`) -/

/-- `ck_price_amount_currency_nullness` on `products`: amount and currency are
both null or both set. -/
def listingPriceOk (p : Listing) : Bool :=
  p.priceAmount.isNone == p.priceCurrency.isNone

/-- The `NOT NULL` column constraints of `product_price_history`. -/
def phRowOk (r : PriceHistoryRow) : Bool :=
  r.amount.isSome && r.currency.isSome

/-- Replace the first product with the given id (the ORM mutates the row
fetched by `.first()` in place). -/
def setProduct : List Listing → Nat → Listing → List Listing
  | [], _, _ => []
  | q :: qs, pid, p' =>
    if q.id == pid then p' :: qs else q :: setProduct qs pid p'

/-- Remove the first product with the given id (`db.delete(product)`). -/
def removeProduct : List Listing → Nat → List Listing
  | [], _ => []
  | q :: qs, pid => if q.id == pid then qs else q :: removeProduct qs pid

/-- A `ProductUpdate` patch under `model_dump(exclude_unset=True)`: `none`
means the field was not supplied.  For the nullable price columns the inner
option is the supplied value, so `some none` is an explicit null.  The
`*_ids` vocabulary lists only touch the (unmodelled) join tables and are
omitted. -/
structure ProductUpdatePatch where
  title : Option String := none
  description : Option String := none
  priceAmount : Option (Option Int) := none
  priceCurrency : Option (Option String) := none
  categoryId : Option Nat := none
  status : Option Status := none
  condition : Option String := none
  locationId : Option Nat := none
  quantity : Option Nat := none
  imageUrls : Option (List String) := none
  keepImageIds : Option (List Nat) := none
deriving Repr

/-- The price-history rows added by an update: lines 166–177 of
`product_repository.py` (identical logic at lines 288–305 of
`product_service.py`): when a price field is supplied and the resulting
(amount, currency) pair differs from the current one, one row is inserted. -/
def priceHistoryDelta (p : Listing) (patch : ProductUpdatePatch) (now : Nat) :
    List PriceHistoryRow :=
  if patch.priceAmount.isSome || patch.priceCurrency.isSome then
    let newA := patch.priceAmount.getD p.priceAmount
    let newC := patch.priceCurrency.getD p.priceCurrency
    if !(newA == p.priceAmount) || !(newC == p.priceCurrency) then
      [{ productId := p.id, changedAt := now, amount := newA, currency := newC }]
    else []
  else []

/-- The scalar-column effect of applying a patch's provided fields
(`setattr(product, field, value)` over `update_data`). -/
def applyPatchFields (p : Listing) (patch : ProductUpdatePatch)
    (soldAt' : Option Nat) (now : Nat) : Listing :=
  { p with
    title := patch.title.getD p.title
    description := patch.description.getD p.description
    priceAmount := patch.priceAmount.getD p.priceAmount
    priceCurrency := patch.priceCurrency.getD p.priceCurrency
    categoryId := patch.categoryId.getD p.categoryId
    condition := patch.condition.getD p.condition
    status := patch.status.getD p.status
    locationId := patch.locationId.getD p.locationId
    quantity := patch.quantity.getD p.quantity
    soldAt := soldAt'
    updatedAt := now }

/-- Lines 183–197 of the repository update: the URLs of the listing's images
that are not in the `keep_image_ids` set (they are deleted and their URLs
returned for byte cleanup). -/
def deletedImageUrls (images : List ImageRow) (pid : Nat)
    (keep : Option (List Nat)) : List String :=
  match keep with
  | some ks =>
    ((images.filter (fun i => i.productId == pid)).filter
      (fun i => !(ks.contains i.id))).map (fun i => i.url)
  | none => []

/-- The image table after the `keep_image_ids` deletion pass. -/
def imagesAfterKeep (images : List ImageRow) (pid : Nat)
    (keep : Option (List Nat)) : List ImageRow :=
  match keep with
  | some ks => images.filter (fun i => !(i.productId == pid && !(ks.contains i.id)))
  | none => images

/-- Lines 198–215 of the repository update: rows appended for
`new_image_urls`, numbered after the current maximum sort order of the
remaining images. -/
def newImageRows (images : List ImageRow) (pid nextId : Nat)
    (urls : List String) (now : Nat) : List ImageRow :=
  let maxSort := (images.filter (fun i => i.productId == pid)).foldl
    (fun m i => max m i.sortOrder) 0
  urls.enum.map (fun iu =>
    { id := nextId + iu.1, productId := pid, url := iu.2, altText := none,
      sortOrder := maxSort + iu.1 + 1, createdAt := now })

/-- Lines 217–221 of the repository update: `sold_at` is stamped when the
patched status is `sold` and otherwise untouched (the repository never clears
it). -/
def repoSoldAt (p : Listing) (patch : ProductUpdatePatch) (now : Nat) :
    Option Nat :=
  match patch.status with
  | some s => if s = .sold then some now else p.soldAt
  | none => p.soldAt

/-- `ProductRepository.update(product_id, product_data, new_image_urls)`:
applies provided fields, records a price-history row if the price changed,
deletes images not in `keep_image_ids` (returning their URLs), appends new
image rows after the current maximum sort order, stamps `sold_at` when status
becomes `sold`, stamps `updated_at`, and commits — a constraint violation
rolls everything back and raises.  Returns `(None, [])` when the id is
unknown. -/
def repoUpdate (db : Db) (pid : Nat) (patch : ProductUpdatePatch)
    (newImageUrls : List String) (now : Nat) :
    Except String (Db × Option Listing × List String) :=
  match db.products.find? (fun p => p.id == pid) with
  | none => .ok (db, none, [])
  | some p =>
    let ph := priceHistoryDelta { p with id := pid } patch now
    let deletedUrls := deletedImageUrls db.images pid patch.keepImageIds
    let imagesAfterDelete := imagesAfterKeep db.images pid patch.keepImageIds
    let newRows := newImageRows imagesAfterDelete pid db.nextImageId newImageUrls now
    let p' := applyPatchFields p patch (repoSoldAt p patch now) now
    if listingPriceOk p' && ph.all phRowOk then
      .ok ({ db with
              products := setProduct db.products pid p'
              priceHistory := db.priceHistory ++ ph
              images := imagesAfterDelete ++ newRows
              nextImageId := db.nextImageId + newImageUrls.length },
            some p', deletedUrls)
    else
      .error "Update failed due to database constraint"

/-- `ProductRepository.soft_delete(product_id)`: sets `deleted_at` and stamps
`updated_at`; `False` when the id is unknown. -/
def softDelete (db : Db) (pid : Nat) (now : Nat) : Db × Bool :=
  match findProduct db pid with
  | none => (db, false)
  | some p =>
    let p' := { p with deletedAt := some now, updatedAt := now }
    ({ db with products := setProduct db.products pid p' }, true)

/-- `ProductRepository.record_view(product_id, viewer_user_id)`: application
pre-check for an existing (listing, viewer) row, then insert; `False` when the
pair was already present. -/
def recordView (db : Db) (pid vid : Nat) (now : Nat) : Db × Bool :=
  if (db.views.find? (fun v => v.productId == pid && v.viewerUserId == some vid)).isSome then
    (db, false)
  else
    ({ db with
        views := db.views ++
          [{ id := db.nextViewId, productId := pid, viewerUserId := some vid,
             viewedAt := now }]
        nextViewId := db.nextViewId + 1 }, true)

/-- Modelled from the spec: the body of the `ArchiveSoldProduct` stored
procedure called by `ProductRepository.archive_sold_product` lives in
`scripts/mysql/init_database.sql`, which is absent from the source tree.
Per §4.3 of the spec, `markSold` is one atomic unit that (a) writes a
`SoldArchiveRecord` snapshot from the listing's current fields and (b) sets
`status = sold` and `sold_at = now`, and "Fails (returns false / raises) if
the listing has no price set"; the Python wrapper turns any failure into a
rolled-back transaction and `False`. -/
def archiveSoldProduct (db : Db) (pid : Nat) (buyerId : Option Nat)
    (_salePrice : Int) (now : Nat) : Db × Bool :=
  match findProduct db pid with
  | none => (db, false)
  | some p =>
    if p.priceAmount.isNone then (db, false)
    else
      let arch : SoldArchiveRow :=
        { id := db.nextArchiveId, productId := some pid, buyerId := buyerId,
          title := p.title, categoryId := p.categoryId,
          locationId := p.locationId, priceAmount := p.priceAmount,
          priceCurrency := p.priceCurrency, soldAt := now }
      let p' := { p with status := .sold, soldAt := some now }
      ({ db with
          products := setProduct db.products pid p'
          soldArchive := db.soldArchive ++ [arch]
          nextArchiveId := db.nextArchiveId + 1 }, true)

/-! ## Service operations (`services/product_service.py`) -/

/-- The error kinds raised by the service (`HTTPException` status codes). -/
inductive ServiceError
  | notFound
  | forbidden
  | badRequest
deriving DecidableEq, Repr

/-- `ProductService.get_product_by_id(db, product_id, current_user_id)`:
fetches by id (no `deleted_at` filter), denies non-owners access to
non-`active`/`sold` listings, records a view for an authenticated non-seller
viewer who has not viewed the listing before, and returns the listing. -/
def serviceGetProductById (db : Db) (pid : Nat) (currentUserId : Option Nat)
    (now : Nat) : Db × Option Listing :=
  match findProduct db pid with
  | none => (db, none)
  | some p =>
    let notOwner := !(currentUserId == some p.sellerId)
    if notOwner && !(p.status == .active || p.status == .sold) then
      (db, none)
    else if pyTruthyNat currentUserId && notOwner then
      if (db.views.find? (fun v =>
            v.productId == pid && v.viewerUserId == currentUserId)).isSome then
        (db, some p)
      else
        ({ db with
            views := db.views ++
              [{ id := db.nextViewId, productId := pid,
                 viewerUserId := currentUserId, viewedAt := now }]
            nextViewId := db.nextViewId + 1 }, some p)
    else
      (db, some p)

/-- `ProductService.update_product(db, product_id, product_update, user_id,
is_admin)`: 404 when absent, 403 for a non-owner non-admin, the same
price-history logic as the repository, full image replacement when
`image_urls` is provided, `sold_at` stamped on a transition to `sold` and
cleared when a `status` field moves the listing off `sold`, provided fields
applied, `updated_at` stamped, and a commit that rolls back to a 400 on a
constraint violation. -/
def serviceUpdateProduct (db : Db) (pid : Nat) (patch : ProductUpdatePatch)
    (userId : Nat) (isAdmin : Bool) (now : Nat) :
    Except ServiceError (Db × Listing) :=
  match findProduct db pid with
  | none => .error .notFound
  | some p =>
    if !isAdmin && !(p.sellerId == userId) then .error .forbidden
    else
      let ph := priceHistoryDelta { p with id := pid } patch now
      let images' := match patch.imageUrls with
        | some urls =>
          db.images.filter (fun i => !(i.productId == pid)) ++
            urls.enum.map (fun iu =>
              { id := db.nextImageId + iu.1, productId := pid, url := iu.2,
                altText := none, sortOrder := iu.1 + 1,
                createdAt := now : ImageRow })
        | none => db.images
      let soldAt' := match patch.status with
        | some s =>
          if s = .sold then some now
          else if p.status = .sold then none
          else p.soldAt
        | none => p.soldAt
      let p' := applyPatchFields p patch soldAt' now
      if listingPriceOk p' && ph.all phRowOk then
        .ok ({ db with
                products := setProduct db.products pid p'
                priceHistory := db.priceHistory ++ ph
                images := images'
                nextImageId := db.nextImageId +
                  (match patch.imageUrls with
                   | some urls => urls.length
                   | none => 0) }, p')
      else
        .error .badRequest

/-- `ProductService.delete_product(db, product_id, user_id)`: 404 when absent,
403 when the caller is not the seller; otherwise deletes the favorite, view,
price-history and image rows of the listing and the listing row itself. -/
def serviceDeleteProduct (db : Db) (pid : Nat) (userId : Nat) :
    Except ServiceError (Db × Bool) :=
  match findProduct db pid with
  | none => .error .notFound
  | some p =>
    if !(p.sellerId == userId) then .error .forbidden
    else
      .ok ({ db with
              favorites := db.favorites.filter (fun f => !(f.productId == pid))
              views := db.views.filter (fun v => !(v.productId == pid))
              priceHistory := db.priceHistory.filter (fun r => !(r.productId == pid))
              images := db.images.filter (fun i => !(i.productId == pid))
              products := removeProduct db.products pid }, true)

/-- `ProductService.mark_product_sold(db, product_id, user_id)`: 404 when
absent, 403 when the caller is not the seller; otherwise sets
`status = "sold"`, `sold_at = now`, `updated_at = now` and commits. -/
def serviceMarkProductSold (db : Db) (pid : Nat) (userId : Nat) (now : Nat) :
    Except ServiceError (Db × Listing) :=
  match findProduct db pid with
  | none => .error .notFound
  | some p =>
    if !(p.sellerId == userId) then .error .forbidden
    else
      let p' := { p with status := .sold, soldAt := some now, updatedAt := now }
      .ok ({ db with products := setProduct db.products pid p' }, p')

/-! ## File upload service (`services/file_upload_service.py`, local storage
mode)

The upload directory is modelled as the list of filenames it holds; a byte
write either succeeds as a whole or fails leaving nothing (`writeOk`).  The
`uuid4()` stem generated for a file is carried in the file description
(`name`); its uniqueness is a hypothesis of the theorems, mirroring the
uuid freshness guarantee. -/

/-- `FileUploadService.ALLOWED_CONTENT_TYPES`. -/
def allowedContentTypes : List String :=
  ["image/jpeg", "image/png", "image/webp", "image/gif"]

/-- `FileUploadService.ALLOWED_EXTENSIONS`. -/
def allowedExtensions : List String :=
  [".jpg", ".jpeg", ".png", ".webp", ".gif"]

/-- `FileUploadService.MAX_FILE_SIZE` (5 MB). -/
def maxFileSize : Nat := 5 * 1024 * 1024

/-- `FileUploadService.MAX_IMAGES_PER_PRODUCT`. -/
def maxImagesPerProduct : Nat := 10

/-- `Path(filename).suffix`: the extension from the last dot of the final
path component, provided that dot is neither the first nor the last character
of the component (CPython keeps the suffix only when `0 < i < len(name)-1`
for `i = name.rfind('.')`). -/
def pathSuffix (fn : String) : String :=
  let name := (fn.toList.reverse.takeWhile (fun c => !(c == '/'))).reverse
  let afterDot := name.reverse.takeWhile (fun c => !(c == '.'))
  if afterDot.length = name.length then ""
  else
    let i := name.length - 1 - afterDot.length
    if 0 < i ∧ i < name.length - 1 then String.mk ('.' :: afterDot.reverse)
    else ""

/-- One `UploadFile` as consumed by the service: content type, client
filename, content length, whether the byte write would succeed, and the
`uuid4()` stem the service generates for it. -/
structure FileSpec where
  contentType : String
  filename : String
  size : Nat
  writeOk : Bool
  name : String
deriving DecidableEq, Repr

/-- `f"{uuid4()}{file_extension}"`: the on-disk filename. -/
def storedName (f : FileSpec) : String :=
  f.name ++ lowerStr (pathSuffix f.filename)

/-- `upload_base_path` of the service. -/
def uploadBasePath : String := "uploads/product_images"

/-- `f"/{self.upload_base_path}/{unique_filename}"`. -/
def mkUrl (fname : String) : String :=
  "/" ++ uploadBasePath ++ "/" ++ fname

/-- `Path(url).name`: the component after the last slash. -/
def fileNameOf (url : String) : String :=
  String.mk (((url.toList.reverse).takeWhile (fun c => !(c == '/'))).reverse)

/-- `FileUploadService._validate_and_save_single_image` (local mode): the
validation gauntlet in source order, then the byte write.  Returns the
directory state and either the public URL or the error detail; every failing
branch leaves the directory untouched. -/
def validateAndSaveSingle (store : List String) (f : FileSpec) :
    List String × Except String String :=
  if !(allowedContentTypes.contains f.contentType) then
    (store, .error "Invalid file type")
  else if f.filename = "" then
    (store, .error "Filename is required")
  else if !(allowedExtensions.contains (lowerStr (pathSuffix f.filename))) then
    (store, .error "Invalid file extension")
  else if maxFileSize < f.size then
    (store, .error "File size must be less than 5MB")
  else if f.size = 0 then
    (store, .error "File is empty")
  else if f.writeOk then
    (store ++ [storedName f], .ok (mkUrl (storedName f)))
  else
    (store, .error "write failed")

/-- `FileUploadService._cleanup_files`: best-effort per URL, removing the file
named by each URL's last path component from the upload directory. -/
def cleanupFiles (store : List String) (urls : List String) : List String :=
  urls.foldl (fun st u => st.filter (fun fname => !(fname == fileNameOf u))) store

/-- The saving loop of `validate_and_save_images`: saves each file in order,
accumulating URLs; on any failure it cleans up every already-saved URL and
propagates the error. -/
def saveLoop (store : List String) (savedUrls : List String) :
    List FileSpec → List String × Except String (List String)
  | [] => (store, .ok savedUrls)
  | f :: fs =>
    match validateAndSaveSingle store f with
    | (store', .ok url) => saveLoop store' (savedUrls ++ [url]) fs
    | (store', .error e) => (cleanupFiles store' savedUrls, .error e)

/-- `max_count = max_count or self.MAX_IMAGES_PER_PRODUCT` — Python `or`
treats both `None` and `0` as missing. -/
def effectiveMaxCount (maxCount : Option Nat) : Nat :=
  match maxCount with
  | some n => if n = 0 then maxImagesPerProduct else n
  | none => maxImagesPerProduct

/-- `FileUploadService.validate_and_save_images(files, max_count)`: empty
input short-circuits, `max_count or MAX_IMAGES_PER_PRODUCT` bounds the file
count, then the save loop runs with compensating cleanup. -/
def validateAndSaveImages (store : List String) (files : List FileSpec)
    (maxCount : Option Nat) : List String × Except String (List String) :=
  if files.isEmpty then (store, .ok [])
  else if effectiveMaxCount maxCount < files.length then
    (store, .error "Maximum images allowed")
  else saveLoop store [] files

/-- A filename free of path separators (what `uuid4()` plus a vetted
extension produces). -/
def noSlash (s : String) : Bool :=
  s.toList.all (fun c => !(c == '/'))

/-! ## Concrete fixtures for witnesses and counterexamples -/

/-- A priced, active listing owned by user 1. -/
def bike : Listing :=
  { id := 1, sellerId := 1, title := "Trek Domane", description := "Road bike",
    categoryId := 2, condition := "good", quantity := 1, likesCount := 0,
    viewsCount := 0, priceAmount := some 15000, priceCurrency := some "DKK",
    priceType := "fixed", status := .active, locationId := 1,
    isFlagged := false, createdAt := 10, updatedAt := 10, soldAt := none,
    deletedAt := none }

/-- An unpriced listing: both price columns null. -/
def unpricedLamp : Listing :=
  { bike with
    id := 2,
    title := "Lamp",
    priceAmount := none,
    priceCurrency := none }

/-- A sold listing with its `sold_at` stamp. -/
def soldChair : Listing :=
  { bike with id := 3, title := "Chair", status := .sold, soldAt := some 20 }

/-- A paused listing. -/
def pausedDesk : Listing :=
  { bike with id := 4, title := "Desk", status := .paused }

/-- The concrete database used by the closed checks. -/
def db0 : Db :=
  { products := [bike, unpricedLamp, soldChair, pausedDesk],
    priceHistory := [{ productId := 1, changedAt := 10, amount := some 15000,
                       currency := some "DKK" }],
    images := [{ id := 1, productId := 1,
                 url := "/uploads/product_images/a.jpg", altText := none,
                 sortOrder := 0, createdAt := 10 }],
    views := [],
    favorites := [{ userId := 9, productId := 1, createdAt := 11 }],
    soldArchive := [],
    categories := [{ id := 2, name := "Road Bikes" }],
    nextImageId := 2, nextViewId := 1, nextArchiveId := 1 }

/-- A well-formed upload: allowed type and extension, 100 bytes, healthy
write, fresh uuid stem. -/
def goodUpload : FileSpec :=
  { contentType := "image/jpeg", filename := "photo.JPG", size := 100,
    writeOk := true, name := "uuid1" }

/-- An upload whose byte write fails after validation passes. -/
def badWriteUpload : FileSpec :=
  { contentType := "image/png", filename := "pic.png", size := 50,
    writeOk := false, name := "uuid2" }

/-! ## Theorems -/

/-- C2 — counterexample: the claim that both the view-event store and the
favorite store enforce their pair uniqueness through a storage-level
constraint is false: the `item_views` table declares no primary key or
unique index contained in `(product_id, viewer_user_id)`. -/
theorem C2_counterexample :
    ¬(enforcesPairUnique itemViewsConstraints ["product_id", "viewer_user_id"] = true ∧
      enforcesPairUnique favoritesConstraints ["user_id", "product_id"] = true) := by
  decide

/-- C2 (amended): favorite edges are unique per (user id, listing id) by the
composite primary key, a storage-level constraint; the view-event store
declares no storage-level uniqueness on (listing id, viewer id) — its
per-pair uniqueness is maintained only by the application pre-check inside
`record_view`, which does preserve the no-duplicate-pair invariant. -/
theorem C2_amended_uniqueness :
    enforcesPairUnique favoritesConstraints ["user_id", "product_id"] = true ∧
    enforcesPairUnique itemViewsConstraints ["product_id", "viewer_user_id"] = false ∧
    (∀ db pid vid now, viewsPairUnique db.views →
      viewsPairUnique ((recordView db pid vid now).1.views)) := by
  refine ⟨by decide, by decide, ?_⟩
  intro db pid vid now hinv
  unfold recordView
  cases hfind : db.views.find? (fun v => v.productId == pid && v.viewerUserId == some vid) with
  | some v => simp only [hfind, Option.isSome_some, if_true]; exact hinv
  | none =>
    simp only [hfind, Option.isSome_none, Bool.false_eq_true, if_false]
    have hnone : ∀ v ∈ db.views,
        ¬((v.productId == pid && v.viewerUserId == some vid) = true) := by
      intro v hv
      simpa using List.find?_eq_none.mp hfind v hv
    intro v hv w hw hvs hpidEq hvidEq
    rcases List.mem_append.mp hv with hvOld | hvNew
    · rcases List.mem_append.mp hw with hwOld | hwNew
      · exact hinv v hvOld w hwOld hvs hpidEq hvidEq
      · -- w is the fresh row, so v would already match the pair
        have hw' : w = { id := db.nextViewId, productId := pid,
                         viewerUserId := some vid, viewedAt := now } := by
          simpa using hwNew
        exfalso
        apply hnone v hvOld
        have h1 : v.productId = pid := by rw [hpidEq, hw']
        have h2 : v.viewerUserId = some vid := by rw [hvidEq, hw']
        simp [h1, h2]
    · rcases List.mem_append.mp hw with hwOld | hwNew
      · have hv' : v = { id := db.nextViewId, productId := pid,
                         viewerUserId := some vid, viewedAt := now } := by
          simpa using hvNew
        exfalso
        apply hnone w hwOld
        have h1 : w.productId = pid := by rw [← hpidEq, hv']
        have h2 : w.viewerUserId = some vid := by rw [← hvidEq, hv']
        simp [h1, h2]
      · have hv' : v = { id := db.nextViewId, productId := pid,
                         viewerUserId := some vid, viewedAt := now } := by
          simpa using hvNew
        have hw' : w = { id := db.nextViewId, productId := pid,
                         viewerUserId := some vid, viewedAt := now } := by
          simpa using hwNew
        rw [hv', hw']

/-- C2 — witness: the amended invariant-preservation clause applied to the
concrete store. -/
theorem C2_amended_witness :
    viewsPairUnique ((recordView db0 1 9 50).1.views) :=
  C2_amended_uniqueness.2.2 db0 1 9 50
    (by intro v hv w hw h1 h2 h3; simp [db0] at hv)

/-- C10: for a by-id fetch, a caller who is not the owner gets the listing
exactly when its status is `active` or `sold` (draft/paused yield `None`);
the owner always gets it; `deleted_at` is never consulted, so the
characterisation holds for tombstoned listings too. -/
theorem C10_visibility (db : Db) (pid : Nat) (cuid : Option Nat) (now : Nat)
    (p : Listing) (hp : findProduct db pid = some p) :
    ((serviceGetProductById db pid cuid now).2.isSome = true) ↔
      (cuid = some p.sellerId ∨ p.status = Status.active ∨ p.status = Status.sold) := by
  unfold serviceGetProductById
  rw [hp]
  by_cases hown : cuid = some p.sellerId
  · have hbeq : (cuid == some p.sellerId) = true := by simp [hown]
    refine iff_of_true ?_ (Or.inl hown)
    simp only [hbeq, Bool.not_true, Bool.false_and, Bool.and_false,
      Bool.false_eq_true, if_false]
    rfl
  · have hbeq : (cuid == some p.sellerId) = false := by simp [hown]
    by_cases hvis : (p.status == Status.active || p.status == Status.sold) = true
    · have hrhs : cuid = some p.sellerId ∨ p.status = Status.active ∨
          p.status = Status.sold := by
        rcases Bool.or_eq_true_iff.mp hvis with h | h
        · exact Or.inr (Or.inl (by simpa using h))
        · exact Or.inr (Or.inr (by simpa using h))
      refine iff_of_true ?_ hrhs
      simp only [hbeq, hvis, Bool.not_false, Bool.not_true, Bool.true_and,
        Bool.and_false, Bool.and_true, Bool.false_eq_true, if_false]
      split
      · split <;> rfl
      · rfl
    · have h1 : p.status ≠ Status.active := fun h => hvis (by simp [h])
      have h2 : p.status ≠ Status.sold := fun h => hvis (by simp [h])
      have hvis' : (p.status == Status.active || p.status == Status.sold) = false := by
        cases hb : (p.status == Status.active || p.status == Status.sold) with
        | true => exact absurd hb hvis
        | false => rfl
      refine iff_of_false ?_ ?_
      · simp only [hbeq, hvis', Bool.not_false, Bool.and_self, if_true]
        simp
      · rintro (h | h | h)
        · exact hown h
        · exact h1 h
        · exact h2 h

/-- C10 — witness: the visibility characterisation evaluated on a paused
listing for an anonymous caller. -/
theorem C10_visibility_witness :
    ((serviceGetProductById db0 4 none 50).2.isSome = true) ↔
      ((none : Option Nat) = some pausedDesk.sellerId ∨
        pausedDesk.status = Status.active ∨ pausedDesk.status = Status.sold) :=
  C10_visibility db0 4 none 50 pausedDesk (by rfl)

/-- C1 — counterexample: marking the unpriced listing sold through the
service succeeds, setting `status = sold` and `sold_at` although
`price_amount` is null — no Validation error, and the status does change. -/
theorem C1_counterexample :
    (serviceMarkProductSold db0 2 1 40).toOption.map
        (fun r => (r.2.status, r.2.soldAt, r.2.priceAmount)) =
      some (Status.sold, some 40, none) := by
  rfl

/-- C1 (amended): only the stored-procedure archive path (modelled from the
spec) refuses an unpriced listing — `archive_sold_product` returns `False`
and leaves the database unchanged — while `ProductService.mark_product_sold`
performs no price validation: called by the owner on a listing whose
`price_amount` is null it still succeeds, setting `status = sold` and a
non-null `sold_at`. -/
theorem C1_amended_markSold (db : Db) (pid uid now : Nat) (b : Option Nat)
    (sp : Int) (p : Listing) (hp : findProduct db pid = some p)
    (hnull : p.priceAmount = none) :
    archiveSoldProduct db pid b sp now = (db, false) ∧
    (p.sellerId = uid →
      (serviceMarkProductSold db pid uid now).toOption.map
          (fun r => (r.2.status, r.2.soldAt)) = some (Status.sold, some now)) := by
  constructor
  · unfold archiveSoldProduct
    rw [hp]
    dsimp only
    rw [hnull]
    rfl
  · intro hOwn
    unfold serviceMarkProductSold
    rw [hp]
    dsimp only
    have hbeq : (p.sellerId == uid) = true := by simp [hOwn]
    simp only [hbeq, Bool.not_true, Bool.false_eq_true, if_false]
    rfl

/-- C1 — witness: the amended statement evaluated on the unpriced listing. -/
theorem C1_amended_witness :
    archiveSoldProduct db0 2 none 100 40 = (db0, false) ∧
    (serviceMarkProductSold db0 2 1 40).toOption.map
        (fun r => (r.2.status, r.2.soldAt)) = some (Status.sold, some 40) :=
  have h := C1_amended_markSold db0 2 1 40 none 100 unpricedLamp (by rfl) (by rfl)
  ⟨h.1, h.2 (by rfl)⟩

/-- C3 — counterexample: updating the sold listing with `status = "active"`
succeeds, changing the status away from `sold` and clearing `sold_at` to
null — `sold` is not terminal under `update_product`. -/
theorem C3_counterexample :
    (serviceUpdateProduct db0 3 { status := some Status.active } 1 false 30).toOption.map
        (fun r => (r.2.status, r.2.soldAt)) = some (Status.active, none) := by
  rfl

/-- C3 (amended): a successful `update_product` whose patch carries a status
field sets the status to exactly the patched value — including off `sold` —
and `sold_at` becomes `now` when the new status is `sold`, is cleared to null
when a sold listing moves to any other status, and is otherwise unchanged. -/
theorem C3_amended_statusUpdate (db : Db) (pid uid now : Nat) (isAdmin : Bool)
    (patch : ProductUpdatePatch) (p : Listing) (s : Status)
    (hp : findProduct db pid = some p) (hs : patch.status = some s)
    (hok : (serviceUpdateProduct db pid patch uid isAdmin now).isOk = true) :
    (serviceUpdateProduct db pid patch uid isAdmin now).toOption.map
        (fun r => (r.2.status, r.2.soldAt)) =
      some (s, if s = Status.sold then some now
               else if p.status = Status.sold then none else p.soldAt) := by
  unfold serviceUpdateProduct at hok ⊢
  rw [hp] at hok ⊢
  dsimp only at hok ⊢
  by_cases hf : (!isAdmin && !(p.sellerId == uid)) = true
  · rw [if_pos hf] at hok
    exact absurd hok Bool.false_ne_true
  · rw [if_neg hf] at hok ⊢
    rw [hs] at hok ⊢
    dsimp only at hok ⊢
    set soldX := (if s = Status.sold then some now
                  else if p.status = Status.sold then none
                  else p.soldAt : Option Nat) with hX
    split at hok
    · next hcommit =>
      rw [if_pos hcommit]
      simp only [applyPatchFields]
      rw [hs]
      rfl
    · next hcommit =>
      exact absurd hok Bool.false_ne_true

/-- C3 — witness: the amended status/`sold_at` law evaluated on the sold
listing moved back to `active`. -/
theorem C3_amended_witness :
    (serviceUpdateProduct db0 3 { status := some Status.active } 1 false 31).toOption.map
        (fun r => (r.2.status, r.2.soldAt)) =
      some (Status.active,
        if Status.active = Status.sold then some 31
        else if soldChair.status = Status.sold then none else soldChair.soldAt) :=
  C3_amended_statusUpdate db0 3 1 31 false { status := some Status.active }
    soldChair Status.active (by rfl) (by rfl) (by rfl)

/-- C8 — the caller-facing delete evaluated at the failing input: it is
Forbidden for a non-owner, but for the owner it erases the listing row and
every dependent favorite, view, price-history and image row — a hard delete,
not the tombstone the repository's `soft_delete` (and the service unit tests)
prescribe. -/
theorem C8_delete_evaluation :
    serviceDeleteProduct db0 1 2 = .error .forbidden ∧
    (serviceDeleteProduct db0 1 1).toOption.map
        (fun r => (findProduct r.1 1, r.1.priceHistory, r.1.images,
                   r.1.favorites, r.2)) =
      some (none, [], [], [], true) := by
  constructor <;> rfl

/-- C9: recording a view is idempotent — for a fresh (listing, viewer) pair
the first `record_view` returns `True` and inserts one row, the second is a
no-op returning `False` — and the service's by-id fetch never records a view
when the viewer is the listing's owner (the database is untouched). -/
theorem C9_record_view_idempotent (db : Db) (pid vid now1 now2 : Nat)
    (hfresh : viewsFor db pid vid = []) :
    (recordView db pid vid now1).2 = true ∧
    recordView (recordView db pid vid now1).1 pid vid now2 =
      ((recordView db pid vid now1).1, false) ∧
    (viewsFor (recordView db pid vid now1).1 pid vid).length = 1 ∧
    (∀ p, findProduct db pid = some p →
      (serviceGetProductById db pid (some p.sellerId) now1).1 = db) := by
  have hnone : db.views.find?
      (fun v => v.productId == pid && v.viewerUserId == some vid) = none := by
    apply List.find?_eq_none.mpr
    intro v hv
    simpa using List.filter_eq_nil_iff.mp hfresh v hv
  have hfilter : List.filter
      (fun v => v.productId == pid && v.viewerUserId == some vid) db.views = [] :=
    hfresh
  refine ⟨?_, ?_, ?_, ?_⟩
  · unfold recordView
    rw [hnone]
    rfl
  · unfold recordView
    simp [hnone, List.find?_append]
  · unfold recordView viewsFor
    simp [hnone, List.filter_append, hfilter]
  · intro p hp
    unfold serviceGetProductById
    rw [hp]
    have hbeq : ((some p.sellerId : Option Nat) == some p.sellerId) = true := by simp
    simp only [hbeq, Bool.not_true, Bool.false_and, Bool.and_false,
      Bool.false_eq_true, if_false]

/-- Every sorting path of `_apply_sorting` is a permutation of its input. -/
theorem applySorting_perm (rank : String → String → String → Int)
    (filters : Option ProductFilter) (l : List Listing) :
    (applySorting rank filters l).Perm l := by
  rcases filters with _ | f
  · unfold applySorting
    exact List.mergeSort_perm l _
  · unfold applySorting
    dsimp only
    split
    · exact List.mergeSort_perm l _
    · split
      · exact List.mergeSort_perm l _
      · exact List.mergeSort_perm l _

/-- Everything returned by `get_all_filtered` comes from the not-deleted base
query: its `deleted_at` is null. -/
theorem mem_getAllFiltered_deletedAt (ft : String → String → String → Bool)
    (rank : String → String → String → Int) (db : Db)
    (filters : Option ProductFilter) (skip limit : Nat)
    (sf : Option (Listing → Int)) (sd : String) :
    ∀ l ∈ getAllFiltered ft rank db filters skip limit sf sd,
      l.deletedAt = none := by
  intro l hl
  unfold getAllFiltered at hl
  rcases sf with _ | key
  · rcases filters with _ | f
    · dsimp only at hl
      have h1 := List.drop_subset _ _ (List.take_subset _ _ hl)
      have h2 := (applySorting_perm rank none _).subset h1
      have h3 := List.of_mem_filter h2
      simpa using h3
    · dsimp only at hl
      have h1 := List.drop_subset _ _ (List.take_subset _ _ hl)
      have h2 := (applySorting_perm rank (some f) _).subset h1
      have h3 := List.filter_subset' _ h2
      have h4 := List.of_mem_filter h3
      simpa using h4
  · rcases filters with _ | f
    · dsimp only at hl
      have h1 := List.drop_subset _ _ (List.take_subset _ _ hl)
      have h2 : l ∈ db.products.filter (fun p => p.deletedAt.isNone) := by
        by_cases hsd : sd = "asc"
        · rw [if_pos hsd] at h1
          exact (List.mergeSort_perm _ _).subset h1
        · rw [if_neg hsd] at h1
          exact (List.mergeSort_perm _ _).subset h1
      have h3 := List.of_mem_filter h2
      simpa using h3
    · dsimp only at hl
      have h1 := List.drop_subset _ _ (List.take_subset _ _ hl)
      have h2 : l ∈ (db.products.filter (fun p => p.deletedAt.isNone)).filter
          (applyFilters ft db.categories f) := by
        by_cases hsd : sd = "asc"
        · rw [if_pos hsd] at h1
          exact (List.mergeSort_perm _ _).subset h1
        · rw [if_neg hsd] at h1
          exact (List.mergeSort_perm _ _).subset h1
      have h3 := List.filter_subset' _ h2
      have h4 := List.of_mem_filter h3
      simpa using h4

/-- C9 — witness: the idempotence statement evaluated on the concrete store
and, for the owner clause, on the bike listing. -/
theorem C9_record_view_witness :
    (recordView db0 1 9 50).2 = true ∧
    recordView (recordView db0 1 9 50).1 1 9 60 = ((recordView db0 1 9 50).1, false) ∧
    (viewsFor (recordView db0 1 9 50).1 1 9).length = 1 ∧
    (serviceGetProductById db0 1 (some bike.sellerId) 50).1 = db0 :=
  have h := C9_record_view_idempotent db0 1 9 50 60 (by rfl)
  ⟨h.1, h.2.1, h.2.2.1, h.2.2.2 bike (by rfl)⟩

/-- C7: soft deletion returns `True`, rewrites only the listing row — setting
its `deleted_at` tombstone and `updated_at`, every other column including
`status` untouched — leaves the price-history, image, view and favorite
tables unchanged, and the tombstoned listing no longer appears in any
`get_all_filtered` result. -/
theorem C7_soft_delete_frame (db : Db) (pid now : Nat) (p : Listing)
    (hp : findProduct db pid = some p) :
    (softDelete db pid now).2 = true ∧
    (softDelete db pid now).1.products =
      setProduct db.products pid { p with deletedAt := some now, updatedAt := now } ∧
    (softDelete db pid now).1.priceHistory = db.priceHistory ∧
    (softDelete db pid now).1.images = db.images ∧
    (softDelete db pid now).1.views = db.views ∧
    (softDelete db pid now).1.favorites = db.favorites ∧
    (∀ ft rank filters skip limit sf sd,
      ({ p with deletedAt := some now, updatedAt := now } : Listing) ∉
        getAllFiltered ft rank (softDelete db pid now).1 filters skip limit sf sd) := by
  unfold softDelete
  rw [hp]
  dsimp only
  refine ⟨rfl, rfl, rfl, rfl, rfl, rfl, ?_⟩
  intro ft rank filters skip limit sf sd hmem
  have hdel := mem_getAllFiltered_deletedAt ft rank _ filters skip limit sf sd _ hmem
  simp at hdel

/-- Every row the price-ledger guard inserts is stamped with the call's
timestamp. -/
theorem priceHistoryDelta_changedAt (q : Listing) (patch : ProductUpdatePatch)
    (now : Nat) : ∀ e ∈ priceHistoryDelta q patch now, e.changedAt = now := by
  intro e he
  unfold priceHistoryDelta at he
  split at he
  · dsimp only at he
    split at he
    · simp at he
      rw [he]
    · simp at he
  · simp at he

/-- Every row the price-ledger guard inserts belongs to the updated
listing. -/
theorem priceHistoryDelta_filter (p : Listing) (pid : Nat)
    (patch : ProductUpdatePatch) (now : Nat) :
    (priceHistoryDelta { p with id := pid } patch now).filter
        (fun r => r.productId == pid) =
      priceHistoryDelta { p with id := pid } patch now := by
  unfold priceHistoryDelta
  split
  · dsimp only
    split
    · simp
    · simp
  · simp

/-- The price-ledger guard inserts nothing or exactly one fully-determined
row. -/
theorem priceHistoryDelta_cases (q : Listing) (patch : ProductUpdatePatch)
    (now : Nat) :
    priceHistoryDelta q patch now = [] ∨
    priceHistoryDelta q patch now =
      [{ productId := q.id, changedAt := now,
         amount := patch.priceAmount.getD q.priceAmount,
         currency := patch.priceCurrency.getD q.priceCurrency }] := by
  unfold priceHistoryDelta
  split
  · dsimp only
    split
    · exact Or.inr rfl
    · exact Or.inl rfl
  · exact Or.inl rfl

/-- C4: a successful repository update appends to the listing's price ledger
exactly the guard's delta; that delta is non-empty exactly when the resulting
(amount, currency) pair differs from the current one (and holds at most one
row); and under a monotone clock every ledger row, the fresh one included,
is stamped no later than `now` — so the appended row's `changed_at` is ≥
every prior entry's. -/
theorem C4_price_ledger (db : Db) (pid : Nat) (patch : ProductUpdatePatch)
    (urls : List String) (now : Nat) (p : Listing)
    (hp : db.products.find? (fun q => q.id == pid) = some p)
    (hok : (repoUpdate db pid patch urls now).isOk = true)
    (hmono : ∀ r ∈ phFor db pid, r.changedAt ≤ now) :
    (repoUpdate db pid patch urls now).toOption.map (fun r => phFor r.1 pid) =
      some (phFor db pid ++ priceHistoryDelta { p with id := pid } patch now) ∧
    ((priceHistoryDelta { p with id := pid } patch now).isEmpty = false ↔
      (patch.priceAmount.getD p.priceAmount,
       patch.priceCurrency.getD p.priceCurrency) ≠
        (p.priceAmount, p.priceCurrency)) ∧
    (priceHistoryDelta { p with id := pid } patch now).length ≤ 1 ∧
    (∀ e ∈ phFor db pid ++ priceHistoryDelta { p with id := pid } patch now,
      e.changedAt ≤ now) := by
  refine ⟨?_, ?_, ?_, ?_⟩
  · unfold repoUpdate at hok ⊢
    rw [hp] at hok ⊢
    dsimp only at hok ⊢
    split at hok
    · next hcommit =>
      rw [if_pos hcommit]
      unfold phFor
      simp only [Except.toOption, Option.map_some']
      rw [List.filter_append, priceHistoryDelta_filter]
    · next hcommit =>
      exact absurd hok Bool.false_ne_true
  · unfold priceHistoryDelta
    by_cases hset : (patch.priceAmount.isSome || patch.priceCurrency.isSome) = true
    · rw [if_pos hset]
      dsimp only
      by_cases hdiff : (!(patch.priceAmount.getD p.priceAmount == p.priceAmount) ||
          !(patch.priceCurrency.getD p.priceCurrency == p.priceCurrency)) = true
      · rw [if_pos hdiff]
        simp only [List.isEmpty_cons, true_iff]
        rcases Bool.or_eq_true_iff.mp hdiff with h | h
        · have : patch.priceAmount.getD p.priceAmount ≠ p.priceAmount := by
            simpa using h
          intro hEq
          exact this (congrArg Prod.fst hEq)
        · have : patch.priceCurrency.getD p.priceCurrency ≠ p.priceCurrency := by
            simpa using h
          intro hEq
          exact this (congrArg Prod.snd hEq)
      · rw [if_neg hdiff]
        simp only [List.isEmpty_nil]
        constructor
        · intro h
          exact absurd h (by simp)
        · intro hne
          exfalso
          apply hne
          have hor : (!(patch.priceAmount.getD p.priceAmount == p.priceAmount) ||
              !(patch.priceCurrency.getD p.priceCurrency == p.priceCurrency)) = false :=
            Bool.eq_false_iff.mpr hdiff
          rcases Bool.or_eq_false_iff.mp hor with ⟨ha, hc⟩
          have h1 : patch.priceAmount.getD p.priceAmount = p.priceAmount := by
            simpa using ha
          have h2 : patch.priceCurrency.getD p.priceCurrency = p.priceCurrency := by
            simpa using hc
          rw [h1, h2]
    · rw [if_neg hset]
      simp only [List.isEmpty_nil]
      have hor : (patch.priceAmount.isSome || patch.priceCurrency.isSome) = false :=
        Bool.eq_false_iff.mpr hset
      rcases Bool.or_eq_false_iff.mp hor with ⟨ha, hc⟩
      have hA : patch.priceAmount = none := by
        cases hx : patch.priceAmount with
        | none => rfl
        | some v => rw [hx] at ha; simp at ha
      have hC : patch.priceCurrency = none := by
        cases hx : patch.priceCurrency with
        | none => rfl
        | some v => rw [hx] at hc; simp at hc
      constructor
      · intro h
        exact absurd h (by simp)
      · intro hne
        exact absurd (by rw [hA, hC]; rfl) hne
  · rcases priceHistoryDelta_cases { p with id := pid } patch now with h | h <;>
      simp [h]
  · intro e he
    rcases List.mem_append.mp he with h | h
    · exact hmono e h
    · exact Nat.le_of_eq (priceHistoryDelta_changedAt _ patch now e h)

/-- C4 — witness: a price change from 15000 DKK to 12000 DKK on the bike
listing appends exactly the one delta row, and every ledger stamp is ≤ the
call time. -/
theorem C4_price_ledger_witness :
    (repoUpdate db0 1 { priceAmount := some (some 12000) } [] 50).toOption.map
        (fun r => phFor r.1 1) =
      some (phFor db0 1 ++
        priceHistoryDelta { bike with id := 1 } { priceAmount := some (some 12000) } 50) ∧
    ((priceHistoryDelta { bike with id := 1 } { priceAmount := some (some 12000) } 50).isEmpty = false ↔
      (({ priceAmount := some (some 12000) } : ProductUpdatePatch).priceAmount.getD bike.priceAmount,
       ({ priceAmount := some (some 12000) } : ProductUpdatePatch).priceCurrency.getD bike.priceCurrency) ≠
        (bike.priceAmount, bike.priceCurrency)) :=
  have h := C4_price_ledger db0 1 { priceAmount := some (some 12000) } [] 50 bike
    (by rfl) (by rfl) (by decide)
  ⟨h.1, h.2.1⟩

/-- Dropping zero and taking at least the whole length of a sorted stage
returns it unchanged. -/
theorem take_drop_sorted_eq {s q : List Listing} (N : Nat) (hperm : s.Perm q)
    (hle : q.length ≤ N) : (s.drop 0).take N = s := by
  rw [List.drop_zero]
  exact List.take_of_length_le (hperm.length_eq ▸ hle)

/-- C5: `count_filtered` and an unlimited `get_all_filtered` apply the same
predicate set — the count equals the length of the unlimited result for every
filter object, sort choice and full-text oracle, and membership in the result
is exactly the not-deleted base predicate plus `_apply_filters`. -/
theorem C5_count_matches_get (ft : String → String → String → Bool)
    (rank : String → String → String → Int) (db : Db)
    (filters : Option ProductFilter) (sf : Option (Listing → Int)) (sd : String) :
    countFiltered ft db filters =
      (getAllFiltered ft rank db filters 0 db.products.length sf sd).length ∧
    (∀ l, l ∈ getAllFiltered ft rank db filters 0 db.products.length sf sd ↔
      (l ∈ db.products ∧ l.deletedAt = none ∧
        (match filters with
         | some f => applyFilters ft db.categories f l = true
         | none => True))) := by
  unfold getAllFiltered countFiltered
  rcases sf with _ | key
  · rcases filters with _ | f
    · dsimp only
      have hperm := applySorting_perm rank none
        (db.products.filter (fun p => p.deletedAt.isNone))
      have hle : (db.products.filter (fun p => p.deletedAt.isNone)).length ≤
          db.products.length := List.length_filter_le _ _
      have ht := take_drop_sorted_eq db.products.length hperm hle
      rw [ht]
      refine ⟨hperm.length_eq.symm, ?_⟩
      intro l
      rw [hperm.mem_iff]
      simp [List.mem_filter, Option.isNone_iff_eq_none]
    · dsimp only
      have hperm := applySorting_perm rank (some f)
        ((db.products.filter (fun p => p.deletedAt.isNone)).filter
          (applyFilters ft db.categories f))
      have hle : ((db.products.filter (fun p => p.deletedAt.isNone)).filter
          (applyFilters ft db.categories f)).length ≤ db.products.length :=
        Nat.le_trans (List.length_filter_le _ _) (List.length_filter_le _ _)
      have ht := take_drop_sorted_eq db.products.length hperm hle
      rw [ht]
      refine ⟨hperm.length_eq.symm, ?_⟩
      intro l
      rw [hperm.mem_iff]
      simp [List.mem_filter, Option.isNone_iff_eq_none, and_assoc, and_comm]
  · rcases filters with _ | f
    · dsimp only
      by_cases hsd : sd = "asc"
      · rw [if_pos hsd]
        have hperm := List.mergeSort_perm
          (db.products.filter (fun p => p.deletedAt.isNone))
          (fun p r => decide (key p ≤ key r))
        have hle : (db.products.filter (fun p => p.deletedAt.isNone)).length ≤
            db.products.length := List.length_filter_le _ _
        have ht := take_drop_sorted_eq db.products.length hperm hle
        rw [ht]
        refine ⟨hperm.length_eq.symm, ?_⟩
        intro l
        rw [hperm.mem_iff]
        simp [List.mem_filter, Option.isNone_iff_eq_none, and_assoc, and_comm]
      · rw [if_neg hsd]
        have hperm := List.mergeSort_perm
          (db.products.filter (fun p => p.deletedAt.isNone))
          (fun p r => decide (key r ≤ key p))
        have hle : (db.products.filter (fun p => p.deletedAt.isNone)).length ≤
            db.products.length := List.length_filter_le _ _
        have ht := take_drop_sorted_eq db.products.length hperm hle
        rw [ht]
        refine ⟨hperm.length_eq.symm, ?_⟩
        intro l
        rw [hperm.mem_iff]
        simp [List.mem_filter, Option.isNone_iff_eq_none, and_assoc, and_comm]
    · dsimp only
      by_cases hsd : sd = "asc"
      · rw [if_pos hsd]
        have hperm := List.mergeSort_perm
          ((db.products.filter (fun p => p.deletedAt.isNone)).filter
            (applyFilters ft db.categories f))
          (fun p r => decide (key p ≤ key r))
        have hle : ((db.products.filter (fun p => p.deletedAt.isNone)).filter
            (applyFilters ft db.categories f)).length ≤ db.products.length :=
          Nat.le_trans (List.length_filter_le _ _) (List.length_filter_le _ _)
        have ht := take_drop_sorted_eq db.products.length hperm hle
        rw [ht]
        refine ⟨hperm.length_eq.symm, ?_⟩
        intro l
        rw [hperm.mem_iff]
        simp [List.mem_filter, Option.isNone_iff_eq_none, and_assoc, and_comm]
      · rw [if_neg hsd]
        have hperm := List.mergeSort_perm
          ((db.products.filter (fun p => p.deletedAt.isNone)).filter
            (applyFilters ft db.categories f))
          (fun p r => decide (key r ≤ key p))
        have hle : ((db.products.filter (fun p => p.deletedAt.isNone)).filter
            (applyFilters ft db.categories f)).length ≤ db.products.length :=
          Nat.le_trans (List.length_filter_le _ _) (List.length_filter_le _ _)
        have ht := take_drop_sorted_eq db.products.length hperm hle
        rw [ht]
        refine ⟨hperm.length_eq.symm, ?_⟩
        intro l
        rw [hperm.mem_iff]
        simp [List.mem_filter, Option.isNone_iff_eq_none, and_assoc, and_comm]

/-- `takeWhile` collects a whole prefix whose elements all satisfy the
predicate when the next element fails it. -/
theorem takeWhile_all_append (p : Char → Bool) (A : List Char) (x : Char)
    (B : List Char) (hA : ∀ a ∈ A, p a = true) (hx : p x = false) :
    (A ++ x :: B).takeWhile p = A := by
  induction A with
  | nil => simp [List.takeWhile_cons, hx]
  | cons a as ih =>
    have ha := hA a (by simp)
    simp only [List.cons_append, List.takeWhile_cons, ha, if_true]
    rw [ih (fun b hb => hA b (by simp [hb]))]

/-- `Path(url).name` recovers the filename from the URL the upload service
builds for it, provided the filename holds no slash. -/
theorem fileNameOf_mkUrl (fn : String) (h : noSlash fn = true) :
    fileNameOf (mkUrl fn) = fn := by
  have hpre : mkUrl fn = "/uploads/product_images/" ++ fn := rfl
  unfold fileNameOf
  rw [hpre]
  have h1 : ("/uploads/product_images/" ++ fn).toList =
      "/uploads/product_images/".toList ++ fn.toList := String.data_append ..
  rw [h1, List.reverse_append]
  have h2 : ("/uploads/product_images/".toList).reverse =
      '/' :: ("/uploads/product_images".toList).reverse := by rfl
  rw [h2]
  rw [takeWhile_all_append _ _ '/' _
    (fun a ha => List.all_eq_true.mp h a (List.mem_reverse.mp ha)) rfl]
  rw [List.reverse_reverse]
  rfl

/-- A single validate-and-save either fails leaving the directory untouched
or appends exactly the stored filename and returns its URL. -/
theorem validateAndSaveSingle_cases (store : List String) (f : FileSpec) :
    (∃ e, validateAndSaveSingle store f = (store, .error e)) ∨
    validateAndSaveSingle store f =
      (store ++ [storedName f], .ok (mkUrl (storedName f))) := by
  unfold validateAndSaveSingle
  split_ifs <;> simp

/-- `_cleanup_files` removes exactly the named batch: deleting the URLs of
fresh, pairwise-distinct, slash-free filenames appended to a directory
restores the original directory. -/
theorem cleanup_restores : ∀ (done store₀ : List String), done.Nodup →
    (∀ d ∈ done, d ∉ store₀) → (∀ d ∈ done, noSlash d = true) →
    cleanupFiles (store₀ ++ done) (done.map mkUrl) = store₀ := by
  intro done
  induction done with
  | nil =>
    intro store₀ _ _ _
    simp [cleanupFiles]
  | cons d ds ih =>
    intro store₀ hn hf hs
    unfold cleanupFiles
    simp only [List.map_cons, List.foldl_cons]
    rw [fileNameOf_mkUrl d (hs d (by simp))]
    have hfil : (store₀ ++ d :: ds).filter (fun fname => !(fname == d)) =
        store₀ ++ ds := by
      rw [List.filter_append]
      congr 1
      · apply List.filter_eq_self.mpr
        intro a ha
        simp only [Bool.not_eq_true', beq_eq_false_iff_ne]
        intro hEq
        exact (hf d (by simp)) (hEq ▸ ha)
      · rw [List.filter_cons]
        simp only [beq_self_eq_true, Bool.not_true, Bool.false_eq_true, if_false]
        apply List.filter_eq_self.mpr
        intro a ha
        simp only [Bool.not_eq_true', beq_eq_false_iff_ne]
        intro hEq
        rw [hEq] at ha
        exact (List.nodup_cons.mp hn).1 ha
    rw [hfil]
    exact ih store₀ (List.nodup_cons.mp hn).2
      (fun x hx => hf x (by simp [hx]))
      (fun x hx => hs x (by simp [hx]))

/-- The save loop either succeeds — having appended exactly the stored names
in order and returning one URL per file — or fails with the directory rolled
back to its original contents. -/
theorem saveLoop_spec : ∀ (files : List FileSpec) (store₀ done : List String),
    (done ++ files.map storedName).Nodup →
    (∀ x ∈ done ++ files.map storedName, x ∉ store₀) →
    (∀ x ∈ done ++ files.map storedName, noSlash x = true) →
    (∀ st' urls, saveLoop (store₀ ++ done) (done.map mkUrl) files = (st', .ok urls) →
      st' = store₀ ++ done ++ files.map storedName ∧
      urls = (done ++ files.map storedName).map mkUrl) ∧
    (∀ st' e, saveLoop (store₀ ++ done) (done.map mkUrl) files = (st', .error e) →
      st' = store₀) := by
  intro files
  induction files with
  | nil =>
    intro store₀ done hn hf hs
    constructor
    · intro st' urls h
      unfold saveLoop at h
      simp only [Prod.mk.injEq, Except.ok.injEq] at h
      obtain ⟨h1, h2⟩ := h
      constructor
      · rw [← h1]
        simp
      · rw [← h2]
        simp
    · intro st' e h
      unfold saveLoop at h
      simp at h
  | cons f fs ih =>
    intro store₀ done hn hf hs
    have hnames : done ++ (f :: fs).map storedName =
        (done ++ [storedName f]) ++ fs.map storedName := by simp
    rcases validateAndSaveSingle_cases (store₀ ++ done) f with ⟨e₀, herr⟩ | hsucc
    · constructor
      · intro st' urls h
        unfold saveLoop at h
        rw [herr] at h
        simp at h
      · intro st' e h
        unfold saveLoop at h
        rw [herr] at h
        simp only [Prod.mk.injEq] at h
        obtain ⟨h1, _⟩ := h
        rw [← h1]
        exact cleanup_restores done store₀ hn.of_append_left
          (fun x hx => hf x (List.mem_append_left _ hx))
          (fun x hx => hs x (List.mem_append_left _ hx))
    · have ihx := ih store₀ (done ++ [storedName f])
        (hnames ▸ hn) (hnames ▸ hf) (hnames ▸ hs)
      constructor
      · intro st' urls h
        unfold saveLoop at h
        rw [hsucc] at h
        dsimp only at h
        rw [List.append_assoc] at h
        rw [show [mkUrl (storedName f)] = List.map mkUrl [storedName f] from rfl,
          ← List.map_append] at h
        obtain ⟨h1, h2⟩ := ihx.1 st' urls h
        constructor
        · rw [h1]
          simp
        · rw [h2]
          simp
      · intro st' e h
        unfold saveLoop at h
        rw [hsucc] at h
        dsimp only at h
        rw [List.append_assoc] at h
        rw [show [mkUrl (storedName f)] = List.map mkUrl [storedName f] from rfl,
          ← List.map_append] at h
        exact ihx.2 st' e h

/-- C6: under the uuid freshness guarantees (stored names pairwise distinct,
absent from the directory, slash-free), `validate_and_save_images` either
succeeds returning exactly one URL per input file with all files written, or
fails with every already-written file deleted — the directory is exactly as
before the call. -/
theorem C6_upload_atomicity (store : List String) (files : List FileSpec)
    (maxCount : Option Nat)
    (hn : (files.map storedName).Nodup)
    (hf : ∀ x ∈ files.map storedName, x ∉ store)
    (hs : ∀ x ∈ files.map storedName, noSlash x = true) :
    (∀ st' urls, validateAndSaveImages store files maxCount = (st', .ok urls) →
      urls.length = files.length ∧ st' = store ++ files.map storedName) ∧
    (∀ st' e, validateAndSaveImages store files maxCount = (st', .error e) →
      st' = store) := by
  cases files with
  | nil =>
    constructor
    · intro st' urls h
      unfold validateAndSaveImages at h
      simp only [List.isEmpty_nil, if_true, Prod.mk.injEq, Except.ok.injEq] at h
      obtain ⟨h1, h2⟩ := h
      rw [← h1, ← h2]
      simp
    · intro st' e h
      unfold validateAndSaveImages at h
      simp at h
  | cons f0 fs =>
    have hsl := saveLoop_spec (f0 :: fs) store []
      (by simpa using hn) (by simpa using hf) (by simpa using hs)
    rw [List.append_nil] at hsl
    constructor
    · intro st' urls h
      unfold validateAndSaveImages at h
      dsimp only [List.isEmpty_cons] at h
      rw [if_neg (by simp)] at h
      by_cases hcount : effectiveMaxCount maxCount < (f0 :: fs).length
      · rw [if_pos hcount] at h
        simp at h
      · rw [if_neg hcount] at h
        obtain ⟨h1, h2⟩ := hsl.1 st' urls h
        constructor
        · rw [h2]
          simp
        · rw [h1]
    · intro st' e h
      unfold validateAndSaveImages at h
      dsimp only [List.isEmpty_cons] at h
      rw [if_neg (by simp)] at h
      by_cases hcount : effectiveMaxCount maxCount < (f0 :: fs).length
      · rw [if_pos hcount] at h
        simp only [Prod.mk.injEq] at h
        exact h.1.symm
      · rw [if_neg hcount] at h
        exact hsl.2 st' e h

/-- C6 — witness: one healthy upload succeeds with one URL and the stored
file appended; the freshness hypotheses hold for the concrete file. -/
theorem C6_upload_witness :
    (["/uploads/product_images/uuid1.jpg"] : List String).length =
      [goodUpload].length ∧
    (["uuid1.jpg"] : List String) = [] ++ [goodUpload].map storedName :=
  (C6_upload_atomicity [] [goodUpload] none (by decide) (by decide)
      (by decide)).1
    ["uuid1.jpg"] ["/uploads/product_images/uuid1.jpg"] (by rfl)

/-- C7 — witness: the frame conditions and the disappearance from the
catalog query, evaluated on the bike listing. -/
theorem C7_soft_delete_witness :
    (softDelete db0 1 40).2 = true ∧
    (softDelete db0 1 40).1.priceHistory = db0.priceHistory ∧
    (softDelete db0 1 40).1.images = db0.images ∧
    ({ bike with deletedAt := some 40, updatedAt := 40 } : Listing) ∉
      getAllFiltered (fun _ _ _ => true) (fun _ _ _ => 0) (softDelete db0 1 40).1
        none 0 100 none "desc" :=
  have h := C7_soft_delete_frame db0 1 40 bike (by rfl)
  ⟨h.1, h.2.2.1, h.2.2.2.1,
    h.2.2.2.2.2.2 (fun _ _ _ => true) (fun _ _ _ => 0) none 0 100 none "desc"⟩

end Recycle
